import Mathlib

/-!
Verification of `src/google_compute_engine_oslogin/utils/oslogin_utils.cc`
(namespace `oslogin_utils`).

The C++ source manipulates json-c values, a caller-supplied byte buffer and
a `struct passwd` that is mutated in place.  The shallow embedding below
models:

* json-c values as the inductive `Json` (json-c's `json_type_double` is not
  modelled: no claim and no code path in the claims' scope touches
  fractional numerics);
* `json_tokener_parse` as an `Option Json` input to every decoder (`none`
  means the payload string was syntactically unparsable);
* the caller buffer as `BufferManager` carrying the free pointer offset
  `buf_`, the remaining capacity `buflen_` and a log `region` of the
  `strncpy` writes performed into the region;
* `abort()` in `BufferManager::Reserve` as the `none` result of an
  `Option`-valued function (the program halts, nothing is written);
* `struct passwd` as the structure `Passwd`; the C functions receive the
  caller's struct, so every modelled function takes the incoming `Passwd`
  explicitly (its `pw_gid` field is *not* among the defaults the source
  resets, which is observable below);
* `errnop` as an `Option Nat`: `some e` means the function returned `false`
  after storing `e` through `errnop`, `none` means it returned `false`
  leaving `errnop` untouched.

The `NssCache` of the source stores each profile as its json-c plain
serialization (`json_object_to_json_string_ext(.., PLAIN)`) and re-parses
it in `GetNextPasswd`; serializing and re-parsing a json-c value is the
identity, so the cache here stores the `Json` value itself, and the
emptiness test `passwd_cache_[index_].empty()` is performed on the
modelled serialization `Json.toPlainString`.
-/

namespace oslogin_utils

/-- Linux errno values used by the source. -/
def ENOENT : Nat := 2

/-- Linux errno value EINVAL. -/
def EINVAL : Nat := 22

/-- Linux errno value ERANGE. -/
def ERANGE : Nat := 34

/-- json-c value types (`json_type_*`); `json_type_double` unused here. -/
inductive JType where
  | null
  | boolean
  | int
  | string
  | array
  | object
deriving DecidableEq

/-- json-c values, as produced by `json_tokener_parse`. -/
inductive Json where
  | null : Json
  | bool : Bool → Json
  | int : Int → Json
  | str : String → Json
  | arr : List Json → Json
  | obj : List (String × Json) → Json

/-- `json_object_get_type`. -/
def Json.typeOf : Json → JType
  | .null => .null
  | .bool _ => .boolean
  | .int _ => .int
  | .str _ => .string
  | .arr _ => .array
  | .obj _ => .object

/-- `json_object_get_type` applied to a possibly-NULL pointer:
json-c returns `json_type_null` for NULL. -/
def optTypeOf : Option Json → JType
  | none => .null
  | some j => j.typeOf

mutual
/-- `json_object_to_json_string_ext(_, JSON_C_TO_STRING_PLAIN)`.
Inner string escaping is not modelled (it never changes emptiness,
which is all the source observes about these strings). -/
def Json.toPlainString : Json → String
  | .null => "null"
  | .bool b => cond b "true" "false"
  | .int n => toString n
  | .str s => "\x22" ++ s ++ "\x22"
  | .arr xs => "[" ++ plainList xs ++ "]"
  | .obj fs => "\x7b" ++ plainFields fs ++ "\x7d"

/-- Comma-separated serialization of array elements. -/
def plainList : List Json → String
  | [] => ""
  | [x] => x.toPlainString
  | x :: y :: rest => x.toPlainString ++ "," ++ plainList (y :: rest)

/-- Comma-separated serialization of object fields. -/
def plainFields : List (String × Json) → String
  | [] => ""
  | [(k, v)] => "\x22" ++ k ++ "\x22:" ++ v.toPlainString
  | (k, v) :: f :: rest =>
    "\x22" ++ k ++ "\x22:" ++ v.toPlainString ++ "," ++ plainFields (f :: rest)
end

/-- Clamp an integer into the int64 range, as json-c's parser and
`strtoll` do on overflow. -/
def int64Clamp (n : Int) : Int :=
  if n < -(2 ^ 63) then -(2 ^ 63) else if n > 2 ^ 63 - 1 then 2 ^ 63 - 1 else n

/-- Digit-accumulation part of `strtoll` (base 10). -/
def strtollDigits : List Char → Int → Int
  | c :: rest, acc =>
    if c.isDigit then strtollDigits rest (acc * 10 + ((c.toNat : Int) - 48)) else acc
  | [], acc => acc

/-- `strtoll(s, NULL, 10)`: optional whitespace, optional sign, digit
prefix, clamped to the int64 range. -/
def strtoll (s : String) : Int :=
  match s.data.dropWhile Char.isWhitespace with
  | '-' :: rest => int64Clamp (-(strtollDigits rest 0))
  | '+' :: rest => int64Clamp (strtollDigits rest 0)
  | rest => int64Clamp (strtollDigits rest 0)

/-- `json_object_get_int64`: ints are stored clamped to int64, strings go
through `strtoll`, booleans map to 0/1, everything else to 0. -/
def Json.get_int64 : Json → Int
  | .int n => int64Clamp n
  | .str s => strtoll s
  | .bool b => cond b 1 0
  | _ => 0

/-- The C cast `(uint32_t)` applied to an int64 value: reduction modulo
`2 ^ 32` onto the non-negative representative. -/
def toUInt32 (n : Int) : Nat := (n % (2 ^ 32 : Int)).toNat

/-- The C cast `(uint64_t)` applied to an int64 value. -/
def toUInt64 (n : Int) : Nat := (n % (2 ^ 64 : Int)).toNat

/-- `json_object_get_string`: identity on strings, serialization
otherwise. -/
def Json.getString : Json → String
  | .str s => s
  | j => j.toPlainString

/-- `json_object_get_boolean`. -/
def Json.getBoolean : Json → Bool
  | .bool b => b
  | .int n => decide (n ≠ 0)
  | .str s => decide (s.length ≠ 0)
  | _ => false

/-- Field lookup in a json-c object's field list (first match; parsed
json-c objects carry unique keys). -/
def objectFieldsGet : List (String × Json) → String → Option Json
  | [], _ => none
  | (k, v) :: rest, key => if k = key then some v else objectFieldsGet rest key

/-- `json_object_object_get_ex`: `false` (here `none`) when the receiver
is not an object. -/
def objectGet (j : Json) (key : String) : Option Json :=
  match j with
  | .obj fields => objectFieldsGet fields key
  | _ => none

/-- `json_object_object_get_ex` on a possibly-NULL pointer (json-c
returns `false` for NULL). -/
def optObjectGet (j? : Option Json) (key : String) : Option Json :=
  match j? with
  | some j => objectGet j key
  | none => none

/-- `json_object_array_get_idx`: NULL (`none`) out of range or on a
non-array. -/
def arrayGetIdx (j : Json) (i : Nat) : Option Json :=
  match j with
  | .arr xs => xs.get? i
  | _ => none

/-- `BufferManager` of the source: free pointer offset `buf_`, remaining
capacity `buflen_`, plus a log of the writes performed into the region
(address, C string written there by `strncpy`). -/
structure BufferManager where
  buf_ : Nat
  buflen_ : Nat
  region : List (Nat × String)
deriving DecidableEq

/-- `BufferManager::CheckSpaceAvailable`. -/
def BufferManager.CheckSpaceAvailable (m : BufferManager) (bytes_to_write : Nat) : Bool :=
  if bytes_to_write > m.buflen_ then false else true

/-- `BufferManager::Reserve`; `none` models the `abort()` branch: the
process halts, and in particular nothing is ever written outside the
region. -/
def BufferManager.Reserve (m : BufferManager) (bytes : Nat) : Option (Nat × BufferManager) :=
  if m.buflen_ < bytes then none
  else some (m.buf_, { m with buf_ := m.buf_ + bytes, buflen_ := m.buflen_ - bytes })

/-- Outcome of `BufferManager::AppendString`: the returned boolean, the
buffer manager afterwards, what `*buffer` was set to (the written C
string), and what was stored through `errnop` (when anything was). -/
structure AppendResult where
  success : Bool
  bm : BufferManager
  buffer : Option String
  errnop : Option Nat
deriving DecidableEq

/-- `BufferManager::AppendString`.  The `Reserve`-returned-`none` branch
is dead code here, because `CheckSpaceAvailable` has just guaranteed
`bytes_to_write ≤ buflen_` (lemma `appendString_never_aborts`). -/
def BufferManager.AppendString (m : BufferManager) (value : String) : AppendResult :=
  let bytes_to_write := value.length + 1
  if m.CheckSpaceAvailable bytes_to_write = false then
    { success := false, bm := m, buffer := none, errnop := some ERANGE }
  else
    match m.Reserve bytes_to_write with
    | none => { success := false, bm := m, buffer := none, errnop := none }
    | some (p, m2) =>
      { success := true, bm := { m2 with region := m2.region ++ [(p, value)] },
        buffer := some value, errnop := none }

/-- When `CheckSpaceAvailable` passes, the subsequent `Reserve` inside
`AppendString` cannot hit the `abort()` branch. -/
theorem appendString_never_aborts (m : BufferManager) (bytes : Nat)
    (h : m.CheckSpaceAvailable bytes = true) : (m.Reserve bytes).isSome := by
  unfold BufferManager.CheckSpaceAvailable at h
  unfold BufferManager.Reserve
  split <;> simp_all

/-- `struct passwd` fields that the source populates.  The `char*` fields
are modelled by the C-string contents the pointer designates. -/
structure Passwd where
  pw_uid : Nat
  pw_gid : Nat
  pw_name : String
  pw_dir : String
  pw_shell : String
  pw_gecos : String
  pw_passwd : String
deriving DecidableEq

/-- A call site of the pattern
`if (!buf->AppendString(value, &field, errnop)) return false;`:
on success continue with the written string and the new buffer state,
on failure return `false` with whatever was stored through `errnop`. -/
def appendTo (buf : BufferManager) (value : String)
    (k : String → BufferManager → Except (Option Nat) (Passwd × BufferManager)) :
    Except (Option Nat) (Passwd × BufferManager) :=
  let r := buf.AppendString value
  if r.success = true then k (r.buffer.getD "") r.bm else Except.error r.errnop

/-- Tail of `ValidatePasswd`: gecos and passwd are always overwritten
with freshly written empty strings. -/
def vpTail (result : Passwd) (buf : BufferManager) :
    Except (Option Nat) (Passwd × BufferManager) :=
  appendTo buf "" fun ge buf2 =>
  appendTo buf2 "" fun pw buf3 =>
  Except.ok ({ result with pw_gecos := ge, pw_passwd := pw }, buf3)

/-- `ValidatePasswd` step: default the shell to `/bin/bash` when empty. -/
def vpShell (result : Passwd) (buf : BufferManager) :
    Except (Option Nat) (Passwd × BufferManager) :=
  if result.pw_shell.length = 0 then
    appendTo buf "/bin/bash" fun sh buf2 => vpTail { result with pw_shell := sh } buf2
  else vpTail result buf

/-- `ValidatePasswd` step: default the home directory to
`/home/<username>` when empty. -/
def vpDir (result : Passwd) (buf : BufferManager) :
    Except (Option Nat) (Passwd × BufferManager) :=
  if result.pw_dir.length = 0 then
    appendTo buf ("/home/" ++ result.pw_name) fun d buf2 => vpShell { result with pw_dir := d } buf2
  else vpShell result buf

/-- `ValidatePasswd` (oslogin_utils.cc, lines 198-235). -/
def ValidatePasswd (result : Passwd) (buf : BufferManager) :
    Except (Option Nat) (Passwd × BufferManager) :=
  if result.pw_uid < 1000 then Except.error (some EINVAL)
  else if result.pw_gid = 0 then Except.error (some EINVAL)
  else if result.pw_name.length = 0 then Except.error (some EINVAL)
  else vpDir result buf

/-- The `json_object_object_foreach(posix_accounts, key, val)` loop of
`ParseJsonToPasswd` (lines 340-395), iterating the account object's
fields in order. -/
def parseLoop : List (String × Json) → Passwd → BufferManager →
    Except (Option Nat) (Passwd × BufferManager)
  | [], result, buf => Except.ok (result, buf)
  | (key, val) :: rest, result, buf =>
    if key = "uid" then
      if val.typeOf = JType.int ∨ val.typeOf = JType.string then
        let u := toUInt32 val.get_int64
        if u = 0 then Except.error (some EINVAL)
        else parseLoop rest { result with pw_uid := u } buf
      else Except.error (some EINVAL)
    else if key = "gid" then
      if val.typeOf = JType.int ∨ val.typeOf = JType.string then
        let g := toUInt32 val.get_int64
        -- "Use the uid as the default group when gid is not set or is zero."
        let g2 := if g = 0 then result.pw_uid else g
        parseLoop rest { result with pw_gid := g2 } buf
      else Except.error (some EINVAL)
    else if key = "username" then
      if val.typeOf = JType.string then
        appendTo buf val.getString fun p buf2 =>
          parseLoop rest { result with pw_name := p } buf2
      else Except.error (some EINVAL)
    else if key = "homeDirectory" then
      if val.typeOf = JType.string then
        appendTo buf val.getString fun p buf2 =>
          parseLoop rest { result with pw_dir := p } buf2
      else Except.error (some EINVAL)
    else if key = "shell" then
      if val.typeOf = JType.string then
        appendTo buf val.getString fun p buf2 =>
          parseLoop rest { result with pw_shell := p } buf2
      else Except.error (some EINVAL)
    else parseLoop rest result buf

/-- Line 397 of the source: the value of `ParseJsonToPasswd` is the
value of `ValidatePasswd` once the field loop has succeeded, and the
loop's failure otherwise. -/
def afterLoop : Except (Option Nat) (Passwd × BufferManager) →
    Except (Option Nat) (Passwd × BufferManager)
  | Except.ok (r, b) => ValidatePasswd r b
  | Except.error e => Except.error e

/-- Second half of `ParseJsonToPasswd` (lines 318-398): locate
`posixAccounts`, take its first element, set the sentinel defaults
(`pw_gid` is deliberately *not* among them, as in the source), run the
field loop, then `ValidatePasswd`. -/
def ppPosix (root? : Option Json) (result : Passwd) (buf : BufferManager) :
    Except (Option Nat) (Passwd × BufferManager) :=
  match optObjectGet root? "posixAccounts" with
  | none => Except.error (some ENOENT)
  | some pa =>
    if pa.typeOf ≠ JType.array then Except.error none
    else
      let pa0 := arrayGetIdx pa 0
      let result2 :=
        { result with pw_uid := 0, pw_shell := "", pw_name := "", pw_dir := "" }
      if optTypeOf pa0 ≠ JType.object then Except.error none
      else
        match pa0 with
        | some (Json.obj fields) => afterLoop (parseLoop fields result2 buf)
        | _ => Except.error none

/-- `ParseJsonToPasswd` (lines 301-398) on the result of
`json_tokener_parse` (`none` = unparsable payload). -/
def ParseJsonToPasswd (root? : Option Json) (result : Passwd) (buf : BufferManager) :
    Except (Option Nat) (Passwd × BufferManager) :=
  match root? with
  | none => Except.error (some ENOENT)
  | some root =>
    match objectGet root "loginProfiles" with
    | some lp =>
      if lp.typeOf ≠ JType.array then Except.error none
      else ppPosix (arrayGetIdx lp 0) result buf
    | none => ppPosix (some root) result buf

/-- Inner `json_object_object_foreach(iter, key, val)` of
`ParseJsonToSshKeys` (lines 273-293), threading `key_to_add` and
`expired` through the entry's fields in order. -/
def sshEntryLoop (cur_usec : Nat) :
    List (String × Json) → String → Bool → String × Bool
  | [], key_to_add, expired => (key_to_add, expired)
  | (key, val) :: rest, key_to_add, expired =>
    if key = "key" then
      if val.typeOf ≠ JType.string then sshEntryLoop cur_usec rest key_to_add expired
      else sshEntryLoop cur_usec rest val.getString expired
    else if key = "expirationTimeUsec" then
      if val.typeOf = JType.int ∨ val.typeOf = JType.string then
        let expiry_usec := toUInt64 val.get_int64
        sshEntryLoop cur_usec rest key_to_add (decide (cur_usec > expiry_usec))
      else sshEntryLoop cur_usec rest key_to_add expired
    else sshEntryLoop cur_usec rest key_to_add expired

/-- Outer `json_object_object_foreach(ssh_public_keys, key, val)` of
`ParseJsonToSshKeys` (lines 263-297): look each field name up again in
the object, skip non-object entries, and collect a non-empty, non-expired
`key_to_add` per entry. -/
def sshKeysLoop (cur_usec : Nat) (ssh_public_keys : List (String × Json)) :
    List (String × Json) → List String → List String
  | [], result => result
  | (key, _) :: rest, result =>
    match objectFieldsGet ssh_public_keys key with
    | none => result
    | some iter =>
      match iter with
      | Json.obj fs =>
        let ke := sshEntryLoop cur_usec fs "" false
        if ke.1.isEmpty = false ∧ ke.2 = false then
          sshKeysLoop cur_usec ssh_public_keys rest (result ++ [ke.1])
        else sshKeysLoop cur_usec ssh_public_keys rest result
      | _ => sshKeysLoop cur_usec ssh_public_keys rest result

/-- `ParseJsonToSshKeys` (lines 237-299).  `gettimeofday` is modelled by
the parameter `cur_usec`, the current wall-clock time in microseconds. -/
def ParseJsonToSshKeys (root? : Option Json) (cur_usec : Nat) : List String :=
  match root? with
  | none => []
  | some root =>
    match objectGet root "loginProfiles" with
    | none => []
    | some lp =>
      if lp.typeOf ≠ JType.array then []
      else
        match optObjectGet (arrayGetIdx lp 0) "sshPublicKeys" with
        | none => []
        | some spk =>
          match spk with
          | Json.obj fields => sshKeysLoop cur_usec fields fields []
          | _ => []

/-- `ParseJsonToEmail` (lines 401-421). -/
def ParseJsonToEmail (root? : Option Json) : String :=
  match root? with
  | none => ""
  | some root =>
    match objectGet root "loginProfiles" with
    | none => ""
    | some lp =>
      if lp.typeOf ≠ JType.array then ""
      else
        match optObjectGet (arrayGetIdx lp 0) "name" with
        | none => ""
        | some email => email.getString

/-- `ParseJsonToAuthorizeResponse` (lines 423-434). -/
def ParseJsonToAuthorizeResponse (root? : Option Json) : Bool :=
  match root? with
  | none => false
  | some root =>
    match objectGet root "success" with
    | none => false
    | some success => success.getBoolean

/-- `NssCache` state (fields of the class; `index_` is the enumeration
cursor).  The source caches each profile as its plain json serialization
and re-parses it on use; the round-trip is the identity, so the `Json`
value itself is stored. -/
structure NssCache where
  cache_size_ : Nat
  passwd_cache_ : List Json
  page_token_ : String
  on_last_page_ : Bool
  index_ : Nat

/-- `NssCache::Reset` (lines 74-79). -/
def NssCache.Reset (c : NssCache) : NssCache :=
  { c with page_token_ := "", index_ := 0, passwd_cache_ := [], on_last_page_ := false }

/-- `NssCache::HasNextPasswd` (lines 81-83). -/
def NssCache.HasNextPasswd (c : NssCache) : Bool :=
  c.index_ < c.passwd_cache_.length &&
    !((c.passwd_cache_.getD c.index_ Json.null).toPlainString.isEmpty)

/-- `NssCache::GetNextPasswd` (lines 85-96): parse the entry at the
cursor; the cursor is incremented only when the parse+validate
succeeded. -/
def NssCache.GetNextPasswd (c : NssCache) (buf : BufferManager) (result : Passwd) :
    NssCache × Except (Option Nat) (Passwd × BufferManager) :=
  if c.HasNextPasswd = false then (c, Except.error (some ENOENT))
  else
    let cached_passwd := c.passwd_cache_.getD c.index_ Json.null
    match ParseJsonToPasswd (some cached_passwd) result buf with
    | Except.ok pb => ({ c with index_ := c.index_ + 1 }, Except.ok pb)
    | Except.error e => (c, Except.error e)

/-- Second stage of `NssCache::LoadJsonArrayToCache` (lines 114-133):
locate `loginProfiles` and fill the cache.  The `some _` fallback arm is
the source's `json_object_get_type(login_profiles) != json_type_array`
test, which returns `false` *without* clearing `page_token_`. -/
def loadProfiles (c2 : NssCache) (root : Json) : NssCache × Bool :=
  match objectGet root "loginProfiles" with
  | none => ({ c2 with page_token_ := "" }, false)
  | some (Json.arr profiles) =>
    let arraylen := profiles.length
    if arraylen = 0 ∨ arraylen > c2.cache_size_ then
      ({ c2 with page_token_ := "" }, false)
    else ({ c2 with passwd_cache_ := profiles }, true)
  | some _ => (c2, false)

/-- `NssCache::LoadJsonArrayToCache` (lines 98-134) on the result of
`json_tokener_parse`: reset, parse-check, grab the page token, then
`loadProfiles`.  Returns the cache state and the boolean result. -/
def NssCache.LoadJsonArrayToCache (c : NssCache) (response? : Option Json) :
    NssCache × Bool :=
  let c1 := c.Reset
  match response? with
  | none => (c1, false)
  | some root =>
    let c2 :=
      match objectGet root "nextPageToken" with
      | some tok => { c1 with page_token_ := tok.getString }
      | none => { c1 with page_token_ := "", on_last_page_ := true }
    loadProfiles c2 root

/-! ## Helper lemmas -/

/-- `AppendString` succeeds exactly when the needed bytes fit, writing
`value` plus its terminator at the old free pointer. -/
theorem appendString_success (m : BufferManager) (value : String)
    (h : value.length + 1 ≤ m.buflen_) :
    m.AppendString value =
      { success := true,
        bm := { buf_ := m.buf_ + (value.length + 1),
                buflen_ := m.buflen_ - (value.length + 1),
                region := m.region ++ [(m.buf_, value)] },
        buffer := some value, errnop := none } := by
  unfold BufferManager.AppendString BufferManager.CheckSpaceAvailable BufferManager.Reserve
  have h1 : ¬ (value.length + 1 > m.buflen_) := by omega
  have h2 : ¬ (m.buflen_ < value.length + 1) := by omega
  simp [h1, h2]

/-- `AppendString` fails with ERANGE and no state change when the needed
bytes do not fit. -/
theorem appendString_fail (m : BufferManager) (value : String)
    (h : m.buflen_ < value.length + 1) :
    m.AppendString value =
      { success := false, bm := m, buffer := none, errnop := some ERANGE } := by
  unfold BufferManager.AppendString BufferManager.CheckSpaceAvailable
  have h1 : value.length + 1 > m.buflen_ := by omega
  simp [h1]

/-- Unfolding of a successful `AppendString` call site. -/
theorem appendTo_success (buf : BufferManager) (value : String)
    (k : String → BufferManager → Except (Option Nat) (Passwd × BufferManager))
    (h : value.length + 1 ≤ buf.buflen_) :
    appendTo buf value k =
      k value ⟨buf.buf_ + (value.length + 1), buf.buflen_ - (value.length + 1),
               buf.region ++ [(buf.buf_, value)]⟩ := by
  unfold appendTo
  rw [appendString_success buf value h]
  rfl

/-- Unfolding of a failing `AppendString` call site. -/
theorem appendTo_fail (buf : BufferManager) (value : String)
    (k : String → BufferManager → Except (Option Nat) (Passwd × BufferManager))
    (h : buf.buflen_ < value.length + 1) :
    appendTo buf value k = Except.error (some ERANGE) := by
  unfold appendTo
  rw [appendString_fail buf value h]
  rfl

/-- `(uint32_t)json_object_get_int64` on an in-range json int is the
identity. -/
theorem toUInt32_get_int64_of_lt (n : Nat) (h : n < 2 ^ 32) :
    toUInt32 (Json.get_int64 (Json.int (n : Int))) = n := by
  simp only [Json.get_int64, int64Clamp, toUInt32]
  rw [if_neg (by omega), if_neg (by omega)]
  omega

/-- `(uint32_t)json_object_get_int64` on a json int below `2 ^ 63` is
reduction modulo `2 ^ 32`. -/
theorem toUInt32_get_int64_mod (n : Nat) (h : n < 2 ^ 63) :
    toUInt32 (Json.get_int64 (Json.int (n : Int))) = n % 2 ^ 32 := by
  simp only [Json.get_int64, int64Clamp, toUInt32]
  rw [if_neg (by omega), if_neg (by omega)]
  omega

/-- `(uint64_t)json_object_get_int64` on an in-range json int is the
identity. -/
theorem toUInt64_get_int64_of_lt (n : Nat) (h : n < 2 ^ 63) :
    toUInt64 (Json.get_int64 (Json.int (n : Int))) = n := by
  simp only [Json.get_int64, int64Clamp, toUInt64]
  rw [if_neg (by omega), if_neg (by omega)]
  omega

/-! ## Shared concrete inputs -/

/-- A caller-supplied `struct passwd` whose memory happens to hold gid
999 before the call. -/
def passwd0 : Passwd := ⟨0, 999, "", "", "", "", ""⟩

/-- A fresh 200-byte caller buffer. -/
def buf0 : BufferManager := ⟨0, 200, []⟩

/-! ## C2 -/

/-- Claim C2: on a region with exactly `N` free bytes, `AppendString`
succeeds for `length(value) + 1 ≤ N`, writing exactly those bytes
(including the terminator) at the old free pointer and shrinking the
free count by exactly that amount; for `length(value) + 1 > N` it fails
with `errnop = ERANGE`, performs no write and leaves the free pointer
and remaining capacity unchanged. -/
theorem appendString_exact_capacity_contract (m : BufferManager) (value : String) :
    (value.length + 1 ≤ m.buflen_ →
      m.AppendString value =
        { success := true,
          bm := { buf_ := m.buf_ + (value.length + 1),
                  buflen_ := m.buflen_ - (value.length + 1),
                  region := m.region ++ [(m.buf_, value)] },
          buffer := some value, errnop := none }) ∧
    (value.length + 1 > m.buflen_ →
      m.AppendString value =
        { success := false, bm := m, buffer := none, errnop := some ERANGE }) :=
  ⟨fun h => appendString_success m value h, fun h => appendString_fail m value h⟩

/-- Witness for C2, at a 5-byte region with a fitting string and a
2-byte region with an overlong one. -/
theorem appendString_contract_witness :
    (BufferManager.AppendString ⟨0, 5, []⟩ "ab" =
      { success := true, bm := ⟨3, 2, [(0, "ab")]⟩, buffer := some "ab", errnop := none }) ∧
    (BufferManager.AppendString ⟨0, 2, []⟩ "abc" =
      { success := false, bm := ⟨0, 2, []⟩, buffer := none, errnop := some ERANGE }) :=
  ⟨(appendString_exact_capacity_contract ⟨0, 5, []⟩ "ab").1 (by decide),
   (appendString_exact_capacity_contract ⟨0, 2, []⟩ "abc").2 (by decide)⟩

/-! ## C5 -/

/-- Claim C5: a raw `Reserve` beyond the remaining capacity halts the
process (`abort()`, modelled as `none`) instead of writing out of
bounds; and whenever `CheckSpaceAvailable` (the check `AppendString`
performs first) has passed, that fault branch is unreachable and the
reserved span lies inside the region. -/
theorem reserve_overcommit_halts (m : BufferManager) (bytes : Nat) :
    (m.buflen_ < bytes → m.Reserve bytes = none) ∧
    (m.CheckSpaceAvailable bytes = true →
      m.Reserve bytes =
        some (m.buf_, { m with buf_ := m.buf_ + bytes, buflen_ := m.buflen_ - bytes }) ∧
      m.buf_ + bytes ≤ m.buf_ + m.buflen_) := by
  constructor
  · intro h
    unfold BufferManager.Reserve
    simp [h]
  · intro h
    unfold BufferManager.CheckSpaceAvailable at h
    have h2 : ¬ (m.buflen_ < bytes) := by
      by_contra hc
      rw [if_pos (by omega)] at h
      exact Bool.false_ne_true h
    constructor
    · unfold BufferManager.Reserve
      simp [h2]
    · omega

/-- Witness for C5, at a 10-byte region: an 11-byte reserve halts, and a
checked 10-byte reserve succeeds in bounds. -/
theorem reserve_overcommit_halts_witness :
    (BufferManager.Reserve ⟨0, 10, []⟩ 11 = none) ∧
    (BufferManager.Reserve ⟨0, 10, []⟩ 10 = some (0, ⟨10, 0, []⟩) ∧ 0 + 10 ≤ 0 + 10) :=
  ⟨(reserve_overcommit_halts ⟨0, 10, []⟩ 11).1 (by decide),
   (reserve_overcommit_halts ⟨0, 10, []⟩ 10).2 (by decide)⟩

/-! ## C8 -/

/-- Claim C8: on a syntactically unparsable payload
(`json_tokener_parse` returned NULL), `ParseJsonToPasswd` reports
not-found (`errnop = ENOENT`), `ParseJsonToSshKeys` returns the empty
list, and `ParseJsonToAuthorizeResponse` returns `false`. -/
theorem decoders_benign_on_unparsable (p : Passwd) (m : BufferManager) (cur_usec : Nat) :
    ParseJsonToPasswd none p m = Except.error (some ENOENT) ∧
    ParseJsonToSshKeys none cur_usec = [] ∧
    ParseJsonToAuthorizeResponse none = false :=
  ⟨rfl, rfl, rfl⟩

/-! ## parseLoop step lemmas -/

/-- The field loop on an exhausted field list. -/
theorem parseLoop_nil (r : Passwd) (b : BufferManager) :
    parseLoop [] r b = Except.ok (r, b) := rfl

/-- The field loop on a `uid` field holding a json int. -/
theorem parseLoop_uid_int (n : Int) (rest : List (String × Json))
    (r : Passwd) (b : BufferManager) :
    parseLoop (("uid", Json.int n) :: rest) r b =
      (if toUInt32 (Json.get_int64 (Json.int n)) = 0 then Except.error (some EINVAL)
       else parseLoop rest { r with pw_uid := toUInt32 (Json.get_int64 (Json.int n)) } b) := rfl

/-- The field loop on a `gid` field holding a json int: a zero gid is
replaced by the *current* `pw_uid`. -/
theorem parseLoop_gid_int (n : Int) (rest : List (String × Json))
    (r : Passwd) (b : BufferManager) :
    parseLoop (("gid", Json.int n) :: rest) r b =
      parseLoop rest
        { r with pw_gid :=
            if toUInt32 (Json.get_int64 (Json.int n)) = 0 then r.pw_uid
            else toUInt32 (Json.get_int64 (Json.int n)) } b := rfl

/-- The field loop on a string-valued `username` field. -/
theorem parseLoop_username_str (s : String) (rest : List (String × Json))
    (r : Passwd) (b : BufferManager) :
    parseLoop (("username", Json.str s) :: rest) r b =
      appendTo b s (fun p b2 => parseLoop rest { r with pw_name := p } b2) := rfl

/-- The field loop on a string-valued `homeDirectory` field. -/
theorem parseLoop_homeDirectory_str (s : String) (rest : List (String × Json))
    (r : Passwd) (b : BufferManager) :
    parseLoop (("homeDirectory", Json.str s) :: rest) r b =
      appendTo b s (fun p b2 => parseLoop rest { r with pw_dir := p } b2) := rfl

/-- The field loop on a string-valued `shell` field. -/
theorem parseLoop_shell_str (s : String) (rest : List (String × Json))
    (r : Passwd) (b : BufferManager) :
    parseLoop (("shell", Json.str s) :: rest) r b =
      appendTo b s (fun p b2 => parseLoop rest { r with pw_shell := p } b2) := rfl

/-- `afterLoop` on a completed loop. -/
theorem afterLoop_ok (r : Passwd) (b : BufferManager) :
    afterLoop (Except.ok (r, b)) = ValidatePasswd r b := rfl

/-! ## C1 -/

/-- A cached page entry whose account is well-formed except for
`uid 500`, which fails validation. -/
def badEntry : Json :=
  Json.obj [("posixAccounts", Json.arr
    [Json.obj [("uid", Json.int 500), ("username", Json.str "bob")]])]

/-- A loaded cache whose cursor sits on the bad entry. -/
def cacheWithBadEntry : NssCache := ⟨10, [badEntry], "", false, 0⟩

/-- Claim C1 counterexample: when the entry at the cursor fails
validation, `GetNextPasswd` reports the failure but does NOT advance the
cursor (the claim asserts the cursor is advanced past the bad entry);
the following call re-attempts the same entry and fails identically. -/
theorem getNextPasswd_bad_entry_cursor_stays :
    (cacheWithBadEntry.GetNextPasswd buf0 passwd0).1.index_ = 0 ∧
    (cacheWithBadEntry.GetNextPasswd buf0 passwd0).2 = Except.error (some EINVAL) ∧
    ((cacheWithBadEntry.GetNextPasswd buf0 passwd0).1.GetNextPasswd buf0 passwd0).2 =
      Except.error (some EINVAL) :=
  ⟨rfl, rfl, rfl⟩

/-- Claim C1 (amended): `GetNextPasswd` advances the cursor only on a
successful decode+validate; on any failure (including a bad record at
the cursor) the cursor is left unchanged, so the following call
re-attempts the same entry; the failure is reported to the caller for
that one call. -/
theorem getNextPasswd_cursor_advances_iff_success
    (c : NssCache) (buf : BufferManager) (p : Passwd) :
    (match c.GetNextPasswd buf p with
     | (c2, Except.ok _) => c2.index_ = c.index_ + 1
     | (c2, Except.error _) => c2.index_ = c.index_) := by
  unfold NssCache.GetNextPasswd
  by_cases hc : c.HasNextPasswd = false
  · rw [if_pos hc]
  · rw [if_neg hc]
    rcases hp : ParseJsonToPasswd (some (c.passwd_cache_.getD c.index_ Json.null)) p buf with
      e | pb <;> simp only [hp]

/-! ## C3 -/

/-- The account object carries `gid` 0 *before* `uid` 2000. -/
def payloadGidBeforeUid : Json :=
  Json.obj [("posixAccounts", Json.arr
    [Json.obj [("gid", Json.int 0), ("uid", Json.int 2000),
               ("username", Json.str "alice")]])]

/-- The same account with `gid` 0 *after* `uid` 2000. -/
def payloadUidBeforeGid : Json :=
  Json.obj [("posixAccounts", Json.arr
    [Json.obj [("uid", Json.int 2000), ("gid", Json.int 0),
               ("username", Json.str "alice")]])]

/-- Claim C3 (code bug): with `gid` 0 appearing before `uid` in the
account object, the source substitutes the *current* `pw_uid` — still
the sentinel 0 because `uid` has not been parsed yet — so validation
rejects the record with EINVAL, although the claim (and the source's own
comment "Use the uid as the default group when gid is not set or is
zero") promises gid = uid in any key order and never a rejection.  With
`uid` first the substitution works and yields gid = uid = 2000. -/
theorem parseJson_gid_zero_before_uid_rejected :
    ParseJsonToPasswd (some payloadGidBeforeUid) passwd0 buf0 =
      Except.error (some EINVAL) ∧
    (match ParseJsonToPasswd (some payloadUidBeforeGid) passwd0 buf0 with
     | Except.ok (p, _) => p.pw_gid = 2000 ∧ p.pw_uid = 2000
     | Except.error _ => False) :=
  ⟨rfl, ⟨rfl, rfl⟩⟩

/-! ## C4 -/

/-- An account payload whose every field is well-formed: numeric uid and
gid, string username, home directory and shell. -/
def payloadWellFormed (u g : Nat) (s hd sh : String) : Json :=
  Json.obj [("posixAccounts", Json.arr [Json.obj
    [("uid", Json.int (u : Int)), ("gid", Json.int (g : Int)),
     ("username", Json.str s), ("homeDirectory", Json.str hd),
     ("shell", Json.str sh)]])]

/-- Claim C4: for every account payload carrying `uid = 0` or
`0 < uid < 1000`, decode-then-validate fails with `errnop = EINVAL` and
produces no record, even though every other field (nonzero gid, string
username / home directory / shell) is well-formed and the buffer has
room for every write the decode performs. -/
theorem parseJson_low_uid_rejected_einval
    (u g : Nat) (s hd sh : String) (p : Passwd) (m : BufferManager)
    (hu : u < 1000) (hg0 : 0 < g) (hg32 : g < 2 ^ 32)
    (hcap : s.length + 1 + (hd.length + 1) + (sh.length + 1) ≤ m.buflen_) :
    ParseJsonToPasswd (some (payloadWellFormed u g s hd sh)) p m =
      Except.error (some EINVAL) := by
  have h0 : ParseJsonToPasswd (some (payloadWellFormed u g s hd sh)) p m =
      afterLoop (parseLoop
        [("uid", Json.int (u : Int)), ("gid", Json.int (g : Int)),
         ("username", Json.str s), ("homeDirectory", Json.str hd),
         ("shell", Json.str sh)]
        { p with pw_uid := 0, pw_shell := "", pw_name := "", pw_dir := "" } m) := rfl
  rw [h0, parseLoop_uid_int, toUInt32_get_int64_of_lt u (by omega)]
  by_cases hu0 : u = 0
  · rw [if_pos hu0]
    rfl
  · rw [if_neg hu0, parseLoop_gid_int, toUInt32_get_int64_of_lt g (by omega),
      if_neg (by omega : ¬ g = 0)]
    rw [parseLoop_username_str,
      appendTo_success _ _ _ (show s.length + 1 ≤ m.buflen_ by omega)]
    rw [parseLoop_homeDirectory_str,
      appendTo_success _ _ _
        (show hd.length + 1 ≤ m.buflen_ - (s.length + 1) by omega)]
    rw [parseLoop_shell_str,
      appendTo_success _ _ _
        (show sh.length + 1 ≤ m.buflen_ - (s.length + 1) - (hd.length + 1) by omega)]
    rw [parseLoop_nil, afterLoop_ok]
    unfold ValidatePasswd
    rw [if_pos (show u < 1000 from hu)]

/-- Witness for C4: uid 500, gid 600, username "bob", explicit home and
shell, a 100-byte fresh buffer. -/
theorem parseJson_low_uid_rejected_einval_witness :
    ParseJsonToPasswd (some (payloadWellFormed 500 600 "bob" "/home/bob" "/bin/sh"))
      passwd0 ⟨0, 100, []⟩ = Except.error (some EINVAL) :=
  parseJson_low_uid_rejected_einval 500 600 "bob" "/home/bob" "/bin/sh" passwd0
    ⟨0, 100, []⟩ (by decide) (by decide) (by decide) (by decide)

/-! ## C7 -/

/-- A page payload carrying a continuation token and a `loginProfiles`
field of non-array type. -/
def pageNonArrayProfiles : Json :=
  Json.obj [("nextPageToken", Json.str "tok"), ("loginProfiles", Json.int 5)]

/-- A cache with stale state, about to load the bad page. -/
def cacheBeforeLoad : NssCache := ⟨10, [badEntry], "old", true, 3⟩

/-- Claim C7 counterexample: when `loginProfiles` is present but not
array-typed, `LoadJsonArrayToCache` fails yet RETAINS the continuation
token extracted from that payload (the claim asserts the stored token is
the empty string after every such failure). -/
theorem loadJsonArray_nonarray_keeps_token :
    (cacheBeforeLoad.LoadJsonArrayToCache (some pageNonArrayProfiles)).2 = false ∧
    (cacheBeforeLoad.LoadJsonArrayToCache (some pageNonArrayProfiles)).1.page_token_ = "tok" :=
  ⟨rfl, rfl⟩

/-- A failing `loadProfiles` keeps the entry list and cursor it was
given and either clears the token or hit the non-array arm. -/
theorem loadProfiles_failure (c2 : NssCache) (root : Json)
    (h : (loadProfiles c2 root).2 = false) :
    (loadProfiles c2 root).1.passwd_cache_ = c2.passwd_cache_ ∧
    (loadProfiles c2 root).1.index_ = c2.index_ ∧
    ((loadProfiles c2 root).1.page_token_ = "" ∨
      ∃ lp, objectGet root "loginProfiles" = some lp ∧ lp.typeOf ≠ JType.array) := by
  unfold loadProfiles at *
  rcases hy : objectGet root "loginProfiles" with _ | lp
  · simp only [hy]
    exact ⟨trivial, trivial, Or.inl trivial⟩
  · cases lp <;> simp only [hy] at h ⊢
    case arr profiles =>
      by_cases hl : profiles.length = 0 ∨ profiles.length > c2.cache_size_
      · rw [if_pos hl]
        exact ⟨rfl, rfl, Or.inl rfl⟩
      · rw [if_neg hl] at h
        exact absurd h (by simp)
    all_goals exact ⟨trivial, trivial, Or.inr ⟨_, rfl, by simp [Json.typeOf]⟩⟩

/-- Claim C7 (amended): whenever `LoadJsonArrayToCache` fails (listing
absent, non-array-typed, empty, or longer than the configured maximum),
the entry list is left empty and the cursor at zero; the extracted
continuation token is discarded in the absent/empty/oversized cases, but
it is RETAINED when `loginProfiles` is present with a non-array type. -/
theorem loadJsonArray_failure_state (c : NssCache) (r? : Option Json)
    (h : (c.LoadJsonArrayToCache r?).2 = false) :
    (c.LoadJsonArrayToCache r?).1.passwd_cache_ = [] ∧
    (c.LoadJsonArrayToCache r?).1.index_ = 0 ∧
    ((c.LoadJsonArrayToCache r?).1.page_token_ = "" ∨
      ∃ lp, optObjectGet r? "loginProfiles" = some lp ∧ lp.typeOf ≠ JType.array) := by
  rcases r? with _ | root
  · exact ⟨rfl, rfl, Or.inl rfl⟩
  · unfold NssCache.LoadJsonArrayToCache at *
    rcases hx : objectGet root "nextPageToken" with _ | tok <;>
      simp only [hx] at h ⊢ <;>
      exact loadProfiles_failure _ root h

/-- Witness for C7's amended theorem, at a payload whose listing is an
empty array. -/
theorem loadJsonArray_failure_state_witness :
    (NssCache.LoadJsonArrayToCache ⟨10, [], "old", false, 7⟩
        (some (Json.obj [("loginProfiles", Json.arr [])]))).1.passwd_cache_ = [] ∧
    (NssCache.LoadJsonArrayToCache ⟨10, [], "old", false, 7⟩
        (some (Json.obj [("loginProfiles", Json.arr [])]))).1.index_ = 0 ∧
    ((NssCache.LoadJsonArrayToCache ⟨10, [], "old", false, 7⟩
        (some (Json.obj [("loginProfiles", Json.arr [])]))).1.page_token_ = "" ∨
      ∃ lp, optObjectGet (some (Json.obj [("loginProfiles", Json.arr [])]))
          "loginProfiles" = some lp ∧ lp.typeOf ≠ JType.array) :=
  loadJsonArray_failure_state ⟨10, [], "old", false, 7⟩
    (some (Json.obj [("loginProfiles", Json.arr [])])) rfl

/-! ## C6 -/

/-- Build the json key-entry of one ssh key: credential plus optional
expiration timestamp. -/
def plainKeyEntry : String × Option Nat → Json
  | (k, none) => Json.obj [("key", Json.str k)]
  | (k, some t) => Json.obj [("key", Json.str k), ("expirationTimeUsec", Json.int (t : Int))]

/-- Build an ssh-key payload: one login profile whose `sshPublicKeys`
map holds the given (fingerprint, credential, expiration) entries. -/
def sshPayloadOf (entries : List (String × String × Option Nat)) : Json :=
  Json.obj [("loginProfiles", Json.arr [Json.obj [("sshPublicKeys",
    Json.obj (entries.map fun e => (e.1, plainKeyEntry e.2)))]])]

/-- The retention rule the code implements for one entry: keep a
non-empty credential unless `cur_usec > expiration`. -/
def keptKey (cur_usec : Nat) : String × String × Option Nat → Option String
  | (_, k, none) => if k = "" then none else some k
  | (_, k, some t) => if k = "" ∨ cur_usec > t then none else some k

/-- Claim C6 counterexample: an entry whose expiration equals the
current time (100 = now) is INCLUDED by the code, although the claim
requires the expiration to be strictly greater than now for
inclusion. -/
theorem sshKeys_expiry_equal_now_included :
    ParseJsonToSshKeys (some (sshPayloadOf [("f1", "k", some 100)])) 100 = ["k"] ∧
    ¬ (100 > (100 : Nat)) :=
  ⟨rfl, by omega⟩

/-- Inner entry loop on a plain entry with no expiration field. -/
theorem sshEntryLoop_plain_none (cur : Nat) (k : String) :
    sshEntryLoop cur [("key", Json.str k)] "" false = (k, false) := rfl

/-- Inner entry loop on a plain entry with an int expiration field. -/
theorem sshEntryLoop_plain_some (cur : Nat) (k : String) (t : Int) :
    sshEntryLoop cur [("key", Json.str k), ("expirationTimeUsec", Json.int t)] "" false =
      (k, decide (cur > toUInt64 (Json.get_int64 (Json.int t)))) := rfl

/-- In a field list built from entries with pairwise-distinct names,
looking a name up again (as the source's outer loop does) finds that
entry's own value. -/
theorem objectFieldsGet_map_own (l : List (String × String × Option Nat))
    (hnd : (l.map Prod.fst).Nodup) :
    ∀ e ∈ l, objectFieldsGet (l.map fun x => (x.1, plainKeyEntry x.2)) e.1 =
      some (plainKeyEntry e.2) := by
  induction l with
  | nil => intro e he; cases he
  | cons x rest ih =>
    intro e he
    simp only [List.map_cons, objectFieldsGet]
    cases he with
    | head => rw [if_pos rfl]
    | tail _ hmem =>
      have hx : x.1 ≠ e.1 := by
        intro hEq
        exact (List.nodup_cons.mp hnd).1 (hEq ▸ List.mem_map_of_mem Prod.fst hmem)
      rw [if_neg hx]
      exact ih (List.nodup_cons.mp hnd).2 e hmem

/-- One step of the outer key loop, once the re-lookup of the entry's
name has found an object-typed entry. -/
theorem sshKeysLoop_cons (cur : Nat) (full : List (String × Json))
    (name : String) (v : Json) (fs : List (String × Json))
    (rest : List (String × Json)) (acc : List String)
    (hfind : objectFieldsGet full name = some (Json.obj fs)) :
    sshKeysLoop cur full ((name, v) :: rest) acc =
      (if (sshEntryLoop cur fs "" false).1.isEmpty = false ∧
          (sshEntryLoop cur fs "" false).2 = false
       then sshKeysLoop cur full rest (acc ++ [(sshEntryLoop cur fs "" false).1])
       else sshKeysLoop cur full rest acc) := by
  simp only [sshKeysLoop, hfind]

/-- A non-empty string's `isEmpty` is `false`. -/
theorem isEmpty_false_of_ne (s : String) (h : s ≠ "") : s.isEmpty = false := by
  cases hs : s.isEmpty
  · rfl
  · exact absurd ((String.isEmpty_iff s).mp hs) h

/-- The outer key loop on a map of plain entries with distinct names
collects exactly the non-empty, non-expired credentials in order. -/
theorem sshKeysLoop_plain (cur : Nat) (full : List (String × Json))
    (l : List (String × String × Option Nat)) (acc : List String)
    (hl : ∀ e ∈ l, objectFieldsGet full e.1 = some (plainKeyEntry e.2))
    (hb : ∀ e ∈ l, ∀ t, e.2.2 = some t → t < 2 ^ 63) :
    sshKeysLoop cur full (l.map fun x => (x.1, plainKeyEntry x.2)) acc =
      acc ++ l.filterMap (keptKey cur) := by
  revert hl hb
  induction l generalizing acc with
  | nil =>
    intro _ _
    simp [sshKeysLoop]
  | cons e rest ih =>
    intro hl hb
    obtain ⟨name, k, t?⟩ := e
    have htail : ∀ e ∈ rest, objectFieldsGet full e.1 = some (plainKeyEntry e.2) :=
      fun e he => hl e (List.mem_cons_of_mem _ he)
    have hbtail : ∀ e ∈ rest, ∀ t, e.2.2 = some t → t < 2 ^ 63 :=
      fun e he => hb e (List.mem_cons_of_mem _ he)
    rcases t? with _ | t
    · have hhead : objectFieldsGet full name = some (Json.obj [("key", Json.str k)]) :=
        hl ⟨name, k, none⟩ (List.mem_cons_self _ _)
      rw [List.map_cons, sshKeysLoop_cons cur full name _ _ _ acc hhead,
        sshEntryLoop_plain_none]
      by_cases hk : k = ""
      · subst hk
        rw [if_neg (by intro hc; exact absurd hc.1 (by decide))]
        rw [ih acc htail hbtail]
        simp [keptKey]
      · rw [if_pos ⟨isEmpty_false_of_ne k hk, rfl⟩]
        rw [ih (acc ++ [(k, false).1]) htail hbtail]
        simp [keptKey, hk]
    · have hbt : t < 2 ^ 63 := hb ⟨name, k, some t⟩ (List.mem_cons_self _ _) t rfl
      have hhead : objectFieldsGet full name =
          some (Json.obj [("key", Json.str k), ("expirationTimeUsec", Json.int (t : Int))]) :=
        hl ⟨name, k, some t⟩ (List.mem_cons_self _ _)
      rw [List.map_cons, sshKeysLoop_cons cur full name _ _ _ acc hhead,
        sshEntryLoop_plain_some, toUInt64_get_int64_of_lt t hbt]
      by_cases hk : k = ""
      · subst hk
        rw [if_neg (by
          intro hc
          exact absurd (show ("".isEmpty) = false by simpa using hc.1) (by decide))]
        rw [ih acc htail hbtail]
        simp [keptKey]
      · by_cases ht : cur > t
        · rw [if_neg (by intro hc; rw [decide_eq_false_iff_not] at hc; exact hc.2 ht)]
          rw [ih acc htail hbtail]
          simp [keptKey, hk, ht]
        · rw [if_pos ⟨isEmpty_false_of_ne k hk, by rw [decide_eq_false_iff_not]; exact ht⟩]
          rw [ih (acc ++ [(k, decide (cur > t)).1]) htail hbtail]
          simp [keptKey, hk, ht]

/-- Claim C6 (amended): for a payload of well-formed key entries with
pairwise-distinct names, an entry's credential is kept iff its `key` is
a non-empty string AND (no expiration field is present OR the expiration
is `≥` the current time in microseconds) — i.e. the code keeps an entry
whose expiration exactly equals "now", excluding only strictly-past
expirations. -/
theorem sshKeys_membership_iff_nonempty_and_not_expired
    (entries : List (String × String × Option Nat)) (cur_usec : Nat)
    (hnd : (entries.map Prod.fst).Nodup)
    (hb : ∀ e ∈ entries, ∀ t, e.2.2 = some t → t < 2 ^ 63) :
    ParseJsonToSshKeys (some (sshPayloadOf entries)) cur_usec =
      entries.filterMap (keptKey cur_usec) := by
  have h0 : ParseJsonToSshKeys (some (sshPayloadOf entries)) cur_usec =
      sshKeysLoop cur_usec (entries.map fun x => (x.1, plainKeyEntry x.2))
        (entries.map fun x => (x.1, plainKeyEntry x.2)) [] := rfl
  rw [h0, sshKeysLoop_plain cur_usec _ entries []
    (objectFieldsGet_map_own entries hnd) hb]
  simp

/-- Witness for C6's amended theorem: at time 50, an unexpiring key, an
empty key and a key expired at time 10 yield exactly the first
credential. -/
theorem sshKeys_membership_witness :
    ParseJsonToSshKeys
      (some (sshPayloadOf [("f1", "k1", none), ("f2", "", none), ("f3", "k3", some 10)]))
      50 =
    List.filterMap (keptKey 50)
      [("f1", "k1", none), ("f2", "", none), ("f3", "k3", some 10)] :=
  sshKeys_membership_iff_nonempty_and_not_expired
    [("f1", "k1", none), ("f2", "", none), ("f3", "k3", some 10)] 50
    (by decide)
    (by
      intro e he t ht
      fin_cases he
      all_goals simp_all
      all_goals omega)

/-! ## C10 -/

/-- An account payload with the given numeric `uid`, gid 5000 and
username "u". -/
def payloadUidOf (n : Int) : Json :=
  Json.obj [("posixAccounts", Json.arr [Json.obj
    [("uid", Json.int n), ("gid", Json.int 5000), ("username", Json.str "u")]])]

/-- A fresh 100-byte caller buffer. -/
def freshBuf : BufferManager := ⟨0, 100, []⟩

/-- Claim C10: `uid` is parsed as int64 and narrowed by the
`(uint32_t)` cast, i.e. reduced modulo `2 ^ 32`, before any invariant
check: uid `2 ^ 32` narrows to 0 and is rejected (EINVAL); uid
`2 ^ 32 + k` for `0 < k < 1000` narrows to `k` and is rejected below the
floor; uid `2 ^ 32 + k` for `1000 ≤ k < 2 ^ 32` is accepted with the
truncated value `k`. -/
theorem uid_truncated_mod_2_32 (k : Nat) :
    (ParseJsonToPasswd (some (payloadUidOf (2 ^ 32))) passwd0 freshBuf =
      Except.error (some EINVAL)) ∧
    (0 < k → k < 1000 →
      ParseJsonToPasswd (some (payloadUidOf (2 ^ 32 + (k : Int)))) passwd0 freshBuf =
        Except.error (some EINVAL)) ∧
    (1000 ≤ k → k < 2 ^ 32 →
      ∃ pb, ParseJsonToPasswd (some (payloadUidOf (2 ^ 32 + (k : Int)))) passwd0 freshBuf =
          Except.ok pb ∧ pb.1.pw_uid = k) := by
  have h0 : ParseJsonToPasswd (some (payloadUidOf (2 ^ 32 + (k : Int)))) passwd0 freshBuf =
      afterLoop (parseLoop
        [("uid", Json.int (2 ^ 32 + (k : Int))), ("gid", Json.int 5000),
         ("username", Json.str "u")]
        { passwd0 with pw_uid := 0, pw_shell := "", pw_name := "", pw_dir := "" }
        freshBuf) := rfl
  refine ⟨rfl, ?_, ?_⟩
  · intro h1 h2
    have hk : toUInt32 (Json.get_int64 (Json.int (2 ^ 32 + (k : Int)))) = k := by
      simp only [Json.get_int64, int64Clamp, toUInt32]
      rw [if_neg (by omega), if_neg (by omega)]
      omega
    rw [h0, parseLoop_uid_int, hk, if_neg (show ¬ k = 0 by omega)]
    have h3 : afterLoop (parseLoop
        [("gid", Json.int 5000), ("username", Json.str "u")]
        { { passwd0 with pw_uid := 0, pw_shell := "", pw_name := "", pw_dir := "" }
          with pw_uid := k }
        freshBuf) =
        ValidatePasswd ⟨k, 5000, "u", "", "", "", ""⟩ ⟨2, 98, [(0, "u")]⟩ := rfl
    rw [h3]
    unfold ValidatePasswd
    rw [if_pos (show k < 1000 by omega)]
  · intro h1 h2
    have hk : toUInt32 (Json.get_int64 (Json.int (2 ^ 32 + (k : Int)))) = k := by
      simp only [Json.get_int64, int64Clamp, toUInt32]
      rw [if_neg (by omega), if_neg (by omega)]
      omega
    refine ⟨(⟨k, 5000, "u", "/home/u", "/bin/bash", "", ""⟩,
      ⟨22, 78, [(0, "u"), (2, "/home/u"), (10, "/bin/bash"), (20, ""), (21, "")]⟩),
      ?_, rfl⟩
    rw [h0, parseLoop_uid_int, hk, if_neg (show ¬ k = 0 by omega)]
    have h3 : afterLoop (parseLoop
        [("gid", Json.int 5000), ("username", Json.str "u")]
        { { passwd0 with pw_uid := 0, pw_shell := "", pw_name := "", pw_dir := "" }
          with pw_uid := k }
        freshBuf) =
        ValidatePasswd ⟨k, 5000, "u", "", "", "", ""⟩ ⟨2, 98, [(0, "u")]⟩ := rfl
    rw [h3]
    unfold ValidatePasswd
    rw [if_neg (show ¬ k < 1000 by omega)]
    rfl

/-- Witness for C10, at `k = 2000`: uid `2 ^ 32 + 2000` is accepted as
uid 2000 (and the closed `2 ^ 32 → EINVAL` conjunct evaluated). -/
theorem uid_truncated_mod_2_32_witness :
    (ParseJsonToPasswd (some (payloadUidOf (2 ^ 32))) passwd0 freshBuf =
      Except.error (some EINVAL)) ∧
    (∃ pb, ParseJsonToPasswd (some (payloadUidOf (2 ^ 32 + (2000 : Int)))) passwd0 freshBuf =
        Except.ok pb ∧ pb.1.pw_uid = 2000) :=
  ⟨(uid_truncated_mod_2_32 2000).1,
   (uid_truncated_mod_2_32 2000).2.2 (by omega) (by omega)⟩

/-! ## C9 -/

/-- An account payload with no `gid` field at all. -/
def payloadNoGid : Json :=
  Json.obj [("posixAccounts", Json.arr
    [Json.obj [("uid", Json.int 1000), ("username", Json.str "u")]])]

/-- A caller struct whose memory held gid 1 before the call. -/
def passwdGid1 : Passwd := ⟨0, 1, "", "", "", "", ""⟩

/-- A caller struct whose memory held gid 2 before the call. -/
def passwdGid2 : Passwd := ⟨0, 2, "", "", "", "", ""⟩

/-- Projection of a decode outcome onto the produced gid. -/
def passwdGidOf : Except (Option Nat) (Passwd × BufferManager) → Option Nat
  | Except.ok (p, _) => some p.pw_gid
  | Except.error _ => none

/-- Claim C9 counterexample: for a payload lacking a `gid` field, two
runs on equally large fresh buffers return different gid values (1
vs 2) depending on what the caller's `struct passwd` memory happened to
hold, because the source never resets `pw_gid` among its sentinels — so
the output is not a function of the payload alone. -/
theorem parseJson_initial_gid_leaks :
    passwdGidOf (ParseJsonToPasswd (some payloadNoGid) passwdGid1 buf0) = some 1 ∧
    passwdGidOf (ParseJsonToPasswd (some payloadNoGid) passwdGid2 buf0) = some 2 :=
  ⟨rfl, rfl⟩

/-- Outcome equivalence for C9: both runs fail identically (same errno
disposition) or both succeed with byte-identical record fields and the
same remaining capacity. -/
def sameOutcome : Except (Option Nat) (Passwd × BufferManager) →
    Except (Option Nat) (Passwd × BufferManager) → Prop
  | Except.error e1, Except.error e2 => e1 = e2
  | Except.ok (p1, b1), Except.ok (p2, b2) => p1 = p2 ∧ b1.buflen_ = b2.buflen_
  | _, _ => False

/-- `sameOutcome` congruence through an `if` whose condition does not
depend on the buffer. -/
theorem sameOutcome_ite (c : Prop) [Decidable c]
    (a1 b1 a2 b2 : Except (Option Nat) (Passwd × BufferManager))
    (ha : c → sameOutcome a1 a2) (hb : ¬ c → sameOutcome b1 b2) :
    sameOutcome (if c then a1 else b1) (if c then a2 else b2) := by
  by_cases hc : c
  · rw [if_pos hc, if_pos hc]
    exact ha hc
  · rw [if_neg hc, if_neg hc]
    exact hb hc

/-- `sameOutcome` congruence through an `AppendString` call site. -/
theorem appendTo_same (v : String) (m1 m2 : BufferManager)
    (k1 k2 : String → BufferManager → Except (Option Nat) (Passwd × BufferManager))
    (h : m1.buflen_ = m2.buflen_)
    (hk : ∀ s b1 b2, b1.buflen_ = b2.buflen_ → sameOutcome (k1 s b1) (k2 s b2)) :
    sameOutcome (appendTo m1 v k1) (appendTo m2 v k2) := by
  by_cases hc : v.length + 1 ≤ m1.buflen_
  · rw [appendTo_success m1 v k1 hc, appendTo_success m2 v k2 (by omega)]
    exact hk v _ _ (by simp [h])
  · rw [appendTo_fail m1 v k1 (by omega), appendTo_fail m2 v k2 (by omega)]
    rfl

/-- `sameOutcome` congruence for the gecos/passwd writes. -/
theorem vpTail_same (r : Passwd) (m1 m2 : BufferManager)
    (h : m1.buflen_ = m2.buflen_) :
    sameOutcome (vpTail r m1) (vpTail r m2) := by
  unfold vpTail
  refine appendTo_same _ _ _ _ _ h ?_
  intro s b1 b2 hb
  refine appendTo_same _ _ _ _ _ hb ?_
  intro s2 c1 c2 hc
  exact ⟨rfl, hc⟩

/-- `sameOutcome` congruence for the shell default. -/
theorem vpShell_same (r : Passwd) (m1 m2 : BufferManager)
    (h : m1.buflen_ = m2.buflen_) :
    sameOutcome (vpShell r m1) (vpShell r m2) := by
  unfold vpShell
  refine sameOutcome_ite _ _ _ _ _ (fun _ => ?_) (fun _ => vpTail_same r m1 m2 h)
  exact appendTo_same _ _ _ _ _ h (fun s b1 b2 hb => vpTail_same _ _ _ hb)

/-- `sameOutcome` congruence for the home-directory default. -/
theorem vpDir_same (r : Passwd) (m1 m2 : BufferManager)
    (h : m1.buflen_ = m2.buflen_) :
    sameOutcome (vpDir r m1) (vpDir r m2) := by
  unfold vpDir
  refine sameOutcome_ite _ _ _ _ _ (fun _ => ?_) (fun _ => vpShell_same r m1 m2 h)
  exact appendTo_same _ _ _ _ _ h (fun s b1 b2 hb => vpShell_same _ _ _ hb)

/-- `sameOutcome` congruence for `ValidatePasswd`. -/
theorem validatePasswd_same (r : Passwd) (m1 m2 : BufferManager)
    (h : m1.buflen_ = m2.buflen_) :
    sameOutcome (ValidatePasswd r m1) (ValidatePasswd r m2) := by
  unfold ValidatePasswd
  refine sameOutcome_ite _ _ _ _ _ (fun _ => rfl) (fun _ => ?_)
  refine sameOutcome_ite _ _ _ _ _ (fun _ => rfl) (fun _ => ?_)
  refine sameOutcome_ite _ _ _ _ _ (fun _ => rfl) (fun _ => ?_)
  exact vpDir_same r m1 m2 h

/-- `sameOutcome` congruence for the field loop. -/
theorem parseLoop_same (fields : List (String × Json)) (r : Passwd)
    (m1 m2 : BufferManager) (h : m1.buflen_ = m2.buflen_) :
    sameOutcome (parseLoop fields r m1) (parseLoop fields r m2) := by
  induction fields generalizing r m1 m2 with
  | nil => exact ⟨rfl, h⟩
  | cons f rest ih =>
    obtain ⟨key, val⟩ := f
    simp only [parseLoop]
    refine sameOutcome_ite _ _ _ _ _ (fun _ => ?_) (fun _ => ?_)
    · -- uid
      refine sameOutcome_ite _ _ _ _ _ (fun _ => ?_) (fun _ => rfl)
      exact sameOutcome_ite _ _ _ _ _ (fun _ => rfl) (fun _ => ih _ _ _ h)
    · refine sameOutcome_ite _ _ _ _ _ (fun _ => ?_) (fun _ => ?_)
      · -- gid
        exact sameOutcome_ite _ _ _ _ _ (fun _ => ih _ _ _ h) (fun _ => rfl)
      · refine sameOutcome_ite _ _ _ _ _ (fun _ => ?_) (fun _ => ?_)
        · -- username
          exact sameOutcome_ite _ _ _ _ _
            (fun _ => appendTo_same _ _ _ _ _ h (fun s b1 b2 hb => ih _ _ _ hb))
            (fun _ => rfl)
        · refine sameOutcome_ite _ _ _ _ _ (fun _ => ?_) (fun _ => ?_)
          · -- homeDirectory
            exact sameOutcome_ite _ _ _ _ _
              (fun _ => appendTo_same _ _ _ _ _ h (fun s b1 b2 hb => ih _ _ _ hb))
              (fun _ => rfl)
          · refine sameOutcome_ite _ _ _ _ _ (fun _ => ?_) (fun _ => ih _ _ _ h)
            -- shell
            exact sameOutcome_ite _ _ _ _ _
              (fun _ => appendTo_same _ _ _ _ _ h (fun s b1 b2 hb => ih _ _ _ hb))
              (fun _ => rfl)

/-- `sameOutcome` congruence from the loop's outcome through
`afterLoop`. -/
theorem afterLoop_same (a1 a2 : Except (Option Nat) (Passwd × BufferManager))
    (h : sameOutcome a1 a2) : sameOutcome (afterLoop a1) (afterLoop a2) := by
  match a1, a2 with
  | Except.error e1, Except.error e2 => exact h
  | Except.ok (p1, b1), Except.ok (p2, b2) =>
    obtain ⟨hp, hb⟩ := h
    subst hp
    exact validatePasswd_same p1 b1 b2 hb
  | Except.error _, Except.ok (_, _) => exact h.elim
  | Except.ok (_, _), Except.error _ => exact h.elim

/-- `sameOutcome` congruence for the posixAccounts stage. -/
theorem ppPosix_same (root? : Option Json) (p : Passwd) (m1 m2 : BufferManager)
    (h : m1.buflen_ = m2.buflen_) :
    sameOutcome (ppPosix root? p m1) (ppPosix root? p m2) := by
  unfold ppPosix
  rcases hpa : optObjectGet root? "posixAccounts" with _ | pa
  · exact rfl
  · refine sameOutcome_ite _ _ _ _ _ (fun _ => rfl) (fun _ => ?_)
    refine sameOutcome_ite _ _ _ _ _ (fun _ => rfl) (fun _ => ?_)
    rcases h0 : arrayGetIdx pa 0 with _ | pj
    · exact rfl
    · cases pj <;> first
        | exact rfl
        | exact afterLoop_same _ _ (parseLoop_same _ _ m1 m2 h)

/-- Claim C9 (amended): decoding-then-validating is deterministic in the
payload TOGETHER WITH the caller's initial record state — two runs from
the same initial `struct passwd` on fresh buffers of equal capacity
yield the same success/failure, the same errno disposition, and
byte-identical record fields.  (Determinism in the payload alone fails:
see the counterexample, where the initial struct's gid leaks into the
output when the payload lacks a `gid` field.) -/
theorem parseJson_deterministic_in_payload_and_initial_state
    (root? : Option Json) (p : Passwd) (m1 m2 : BufferManager)
    (h : m1.buflen_ = m2.buflen_) :
    sameOutcome (ParseJsonToPasswd root? p m1) (ParseJsonToPasswd root? p m2) := by
  rcases root? with _ | root
  · exact rfl
  · have h0 : ∀ m, ParseJsonToPasswd (some root) p m =
        (match objectGet root "loginProfiles" with
         | some lp =>
           if lp.typeOf ≠ JType.array then Except.error none
           else ppPosix (arrayGetIdx lp 0) p m
         | none => ppPosix (some root) p m) := fun m => rfl
    rw [h0 m1, h0 m2]
    rcases hlp : objectGet root "loginProfiles" with _ | lp <;> simp only [hlp]
    · exact ppPosix_same _ p m1 m2 h
    · exact sameOutcome_ite _ _ _ _ _ (fun _ => rfl)
        (fun _ => ppPosix_same _ p m1 m2 h)

/-- Witness for C9's amended theorem: the no-gid payload decoded twice
from the same initial struct on two different 200-byte buffers. -/
theorem parseJson_deterministic_witness :
    sameOutcome (ParseJsonToPasswd (some payloadNoGid) passwdGid1 ⟨0, 200, []⟩)
      (ParseJsonToPasswd (some payloadNoGid) passwdGid1 ⟨50, 200, [(0, "x")]⟩) :=
  parseJson_deterministic_in_payload_and_initial_state
    (some payloadNoGid) passwdGid1 ⟨0, 200, []⟩ ⟨50, 200, [(0, "x")]⟩ rfl

end oslogin_utils
